import Mathlib

/-!
# Verification of the rpcchainvm VM client adapter

A shallow embedding of `vms/rpcchainvm/vm_client.go`: the RPC client adapter
(`VMClient`) that lets a consensus engine treat an out-of-process plugin VM as
an in-process component.  Each adapter method issues exactly one RPC call; we
model the remote side as an oracle value (`Except` of a transport error or the
decoded response message) and the method as a pure function of that oracle and
its arguments.  Side-effecting lifecycle methods (`Initialize`, `Shutdown`)
additionally return an explicit trace of the local effects they performed, in
order.

Helpers the adapter calls that live elsewhere in the repository
(`errCodeToError`, `ids.ToID`, `choices.Status.Valid`,
`grpcutils.TimestampAsTime`, `wrappers.Errs`) are modelled from the spec; each
such definition says so in its doc comment.
-/

/-- A byte string crossing the RPC boundary: a list of byte values. -/
abbrev ByteStr := List Nat

/-- The typed Go error values the client can return.  `protoErr code` is the
typed error the shared error-code table assigns to the non-zero code `code`;
the other constructors are the local validation and sentinel errors of
`vm_client.go` (`errUnsupportedFXs`, `errBatchedParseBlockWrongNumberOfBlocks`)
and of the helpers it calls; `transport n` stands for a transport-level RPC
failure (indexed so distinct failures are distinguishable). -/
inductive GoError where
  | protoErr (code : Nat)
  | transport (n : Nat)
  | invalidIDLength (n : Nat)
  | invalidStatus (s : Nat)
  | invalidTimestamp
  | errUnsupportedFXs
  | errBatchedParseBlockWrongNumberOfBlocks
  deriving DecidableEq, Repr

/-- Modelled from the spec: the error-code table's code for "entity not
found" (the table is "a static bijection between a small non-negative integer
and a typed error value"; the exact numerals are not pinned by the spec, only
that they are distinct and non-zero). -/
def errCodeNotFound : Nat := 1

/-- Modelled from the spec: the documented "not implemented" code carried by
`VerifyHeightIndex` (the height-index capability-negotiation code). -/
def errCodeHeightIndexedVMNotImplemented : Nat := 2

/-- Modelled from the spec: the documented "not implemented" code carried by
the state-sync methods (the state-sync capability-negotiation code). -/
def errCodeStateSyncableVMNotImplemented : Nat := 3

/-- Modelled from the spec: the shared error-code table, "a static bijection
between a small non-negative integer and a typed error value; code 0 always
means no error".  A non-zero code translates to its typed error, injectively. -/
def errCodeToError (code : Nat) : Option GoError :=
  if code = 0 then none else some (GoError.protoErr code)

/-- Modelled from the spec: the typed error `block.ErrStateSyncableVMNotImplemented`,
i.e. what the table assigns to the state-sync "not implemented" code. -/
def ErrStateSyncableVMNotImplemented : GoError :=
  GoError.protoErr errCodeStateSyncableVMNotImplemented

/-- Modelled from the spec: the typed "not implemented" error the table
assigns to the height-index "not implemented" code. -/
def ErrHeightIndexedVMNotImplemented : GoError :=
  GoError.protoErr errCodeHeightIndexedVMNotImplemented

/-- Every identifier crossing the boundary is a fixed-size byte sequence of
this length (a 32-byte content hash). -/
def idLen : Nat := 32

/-- The empty identifier `ids.Empty`: all-zero bytes. -/
def idEmpty : ByteStr := List.replicate idLen 0

/-- Modelled from the spec: `ids.ToID` decodes a byte slice into a fixed-size
identifier, failing (with the zero-valued identifier, Go's zero return) when
the length is wrong. -/
def ids_ToID (b : ByteStr) : ByteStr × Option GoError :=
  if b.length = idLen then (b, none)
  else (idEmpty, some (GoError.invalidIDLength b.length))

/-- The block status values of `snow/choices`: Unknown, Processing, Rejected,
Accepted, carried over the wire as a small integer. -/
def choices_Unknown : Nat := 0

def choices_Processing : Nat := 1

def choices_Rejected : Nat := 2

def choices_Accepted : Nat := 3

/-- Modelled from the spec: `choices.Status.Valid`, the error-code-free
status-validity check — `none` exactly on the four declared status values. -/
def status_Valid (s : Nat) : Option GoError :=
  if s = choices_Unknown ∨ s = choices_Processing ∨ s = choices_Rejected ∨
      s = choices_Accepted then none
  else some (GoError.invalidStatus s)

/-- A wire-format timestamp: either convertible to a local time value or not
(a nil or out-of-range protobuf timestamp). -/
structure WireTimestamp where
  valid : Bool
  seconds : Int
  deriving DecidableEq, Repr

/-- Modelled from the spec: `grpcutils.TimestampAsTime` converts a wire
timestamp to a local time value; on an invalid timestamp it returns Go's
zero time together with the conversion error. -/
def grpcutils_TimestampAsTime (ts : WireTimestamp) : Int × Option GoError :=
  if ts.valid then (ts.seconds, none) else (0, some GoError.invalidTimestamp)

/-- The local block handle `blockClient`: a lightweight local object caching a
remote block's decoded fields (identifier, parent identifier, status, opaque
payload bytes, height, timestamp).  The back-reference to the owning adapter
carries no data relevant here and is omitted. -/
structure blockClient where
  id : ByteStr
  parentID : ByteStr
  status : Nat
  bytes : ByteStr
  height : Nat
  time : Int
  deriving DecidableEq, Repr

/-- `blockClient.ID()`. -/
def blockClient.ID (b : blockClient) : ByteStr := b.id

/-- `blockClient.Parent()`. -/
def blockClient.Parent (b : blockClient) : ByteStr := b.parentID

/-- `blockClient.Status()`. -/
def blockClient.Status (b : blockClient) : Nat := b.status

/-- `blockClient.Bytes()`. -/
def blockClient.Bytes (b : blockClient) : ByteStr := b.bytes

/-- `blockClient.Height()`. -/
def blockClient.Height (b : blockClient) : Nat := b.height

/-- `blockClient.Timestamp()`. -/
def blockClient.Timestamp (b : blockClient) : Int := b.time

/-- `blockClient.Accept`: sets the local status to Accepted, then issues the
`BlockAccept` RPC; the RPC's outcome is the second component and the updated
handle the first, so the status is updated even when the RPC fails. -/
def blockClient.Accept (b : blockClient) (rpcErr : Option GoError) :
    blockClient × Option GoError :=
  ({ b with status := choices_Accepted }, rpcErr)

/-- `blockClient.Reject`: sets the local status to Rejected, then issues the
`BlockReject` RPC. -/
def blockClient.Reject (b : blockClient) (rpcErr : Option GoError) :
    blockClient × Option GoError :=
  ({ b with status := choices_Rejected }, rpcErr)

/-- The response message of the `BlockVerify` RPC. -/
structure BlockVerifyResponse where
  timestamp : WireTimestamp
  deriving DecidableEq, Repr

/-- `blockClient.Verify`: sends the handle's bytes; on RPC success overwrites
the handle's timestamp with the decoded response timestamp. -/
def blockClient.Verify (b : blockClient) (rpc : Except GoError BlockVerifyResponse) :
    blockClient × Option GoError :=
  match rpc with
  | Except.error e => (b, some e)
  | Except.ok resp =>
    let (t, tErr) := grpcutils_TimestampAsTime resp.timestamp
    ({ b with time := t }, tErr)

/-- One operation the consensus engine can issue on a block handle, together
with the remote outcome it meets. -/
inductive BlockOp where
  | accept (rpcErr : Option GoError)
  | reject (rpcErr : Option GoError)
  | verify (rpc : Except GoError BlockVerifyResponse)
  deriving Repr

/-- The handle after one operation (the RPC outcome component dropped). -/
def applyBlockOp (b : blockClient) : BlockOp → blockClient
  | BlockOp.accept e => (b.Accept e).1
  | BlockOp.reject e => (b.Reject e).1
  | BlockOp.verify r => (b.Verify r).1

/-- Whether the operation is an explicit accept/reject decision. -/
def BlockOp.isDecision : BlockOp → Bool
  | BlockOp.accept _ => true
  | BlockOp.reject _ => true
  | BlockOp.verify _ => false

/-- The response message of the `BuildBlock` RPC. -/
structure BuildBlockResponse where
  id : ByteStr
  parentId : ByteStr
  bytes : ByteStr
  height : Nat
  timestamp : WireTimestamp
  deriving DecidableEq, Repr

/-- `VMClient.buildBlock`: decode id and parent id (aborting on failure), then
construct a Processing-status handle from the response; a timestamp decoding
failure still returns the constructed handle together with the error. -/
def buildBlock (rpc : Except GoError BuildBlockResponse) :
    Option blockClient × Option GoError :=
  match rpc with
  | Except.error e => (none, some e)
  | Except.ok resp =>
    let (id, idErr) := ids_ToID resp.id
    match idErr with
    | some e => (none, some e)
    | none =>
      let (parentID, pErr) := ids_ToID resp.parentId
      match pErr with
      | some e => (none, some e)
      | none =>
        let (time, tErr) := grpcutils_TimestampAsTime resp.timestamp
        (some ⟨id, parentID, choices_Processing, resp.bytes, resp.height, time⟩,
          tErr)

/-- The response message of the `ParseBlock` RPC. -/
structure ParseBlockResponse where
  id : ByteStr
  parentId : ByteStr
  status : Nat
  height : Nat
  timestamp : WireTimestamp
  deriving DecidableEq, Repr

/-- `VMClient.parseBlock`: decode id, parent id and status (aborting on
failure, with the status checked by the status-validity check), then construct
a handle carrying the *request* bytes; a timestamp decoding failure still
returns the constructed handle together with the error. -/
def parseBlock (rpc : Except GoError ParseBlockResponse) (bytes : ByteStr) :
    Option blockClient × Option GoError :=
  match rpc with
  | Except.error e => (none, some e)
  | Except.ok resp =>
    let (id, idErr) := ids_ToID resp.id
    match idErr with
    | some e => (none, some e)
    | none =>
      let (parentID, pErr) := ids_ToID resp.parentId
      match pErr with
      | some e => (none, some e)
      | none =>
        match status_Valid resp.status with
        | some e => (none, some e)
        | none =>
          let (time, tErr) := grpcutils_TimestampAsTime resp.timestamp
          (some ⟨id, parentID, resp.status, bytes, resp.height, time⟩, tErr)

/-- The response message of the `GetBlock` RPC (it carries no block id: the
requester already knows it). -/
structure GetBlockResponse where
  parentId : ByteStr
  status : Nat
  bytes : ByteStr
  height : Nat
  timestamp : WireTimestamp
  err : Nat
  deriving DecidableEq, Repr

/-- `VMClient.getBlock`: a non-zero embedded error code fails with its typed
translation and no handle; otherwise decode parent id and status, then
construct a handle whose id is the *requested* id; a timestamp decoding
failure still returns the constructed handle together with the error. -/
def getBlock (rpc : Except GoError GetBlockResponse) (blkID : ByteStr) :
    Option blockClient × Option GoError :=
  match rpc with
  | Except.error e => (none, some e)
  | Except.ok resp =>
    if resp.err ≠ 0 then (none, errCodeToError resp.err)
    else
      let (parentID, pErr) := ids_ToID resp.parentId
      match pErr with
      | some e => (none, some e)
      | none =>
        match status_Valid resp.status with
        | some e => (none, some e)
        | none =>
          let (time, tErr) := grpcutils_TimestampAsTime resp.timestamp
          (some ⟨blkID, parentID, resp.status, resp.bytes, resp.height, time⟩,
            tErr)

/-- The response message of the `GetBlockIDAtHeight` RPC. -/
structure GetBlockIDAtHeightResponse where
  blkId : ByteStr
  err : Nat
  deriving DecidableEq, Repr

/-- `VMClient.GetBlockIDAtHeight`: transport failure or a non-zero embedded
error code yields the empty identifier and the (typed) error; otherwise the
decoded response identifier. -/
def GetBlockIDAtHeight (rpc : Except GoError GetBlockIDAtHeightResponse) :
    ByteStr × Option GoError :=
  match rpc with
  | Except.error e => (idEmpty, some e)
  | Except.ok resp =>
    if resp.err ≠ 0 then (idEmpty, errCodeToError resp.err)
    else ids_ToID resp.blkId

/-- `VMClient.VerifyHeightIndex`: the result is exactly the error-code
translation of the response's embedded code (the argument is the response's
`Err` field on RPC success). -/
def VerifyHeightIndex (rpc : Except GoError Nat) : Option GoError :=
  match rpc with
  | Except.error e => some e
  | Except.ok errCode => errCodeToError errCode

/-- One entry of the `BatchedParseBlock` RPC's response list. -/
structure BatchBlockResponse where
  id : ByteStr
  parentId : ByteStr
  status : Nat
  height : Nat
  timestamp : WireTimestamp
  deriving DecidableEq, Repr

/-- The loop body of `VMClient.BatchedParseBlock`: walk the response entries
paired positionally with the request byte strings, decoding each entry
(aborting the whole call on the first failure, timestamp included) into a
handle that carries the corresponding *input* bytes. -/
def batchedParseLoop :
    List (ByteStr × BatchBlockResponse) → Except GoError (List blockClient)
  | [] => Except.ok []
  | (bytes, r) :: rest =>
    let (id, idErr) := ids_ToID r.id
    match idErr with
    | some e => Except.error e
    | none =>
      let (parentID, pErr) := ids_ToID r.parentId
      match pErr with
      | some e => Except.error e
      | none =>
        match status_Valid r.status with
        | some e => Except.error e
        | none =>
          let (time, tErr) := grpcutils_TimestampAsTime r.timestamp
          match tErr with
          | some e => Except.error e
          | none =>
            match batchedParseLoop rest with
            | Except.error e => Except.error e
            | Except.ok blks =>
              Except.ok (⟨id, parentID, r.status, bytes, r.height, time⟩ :: blks)

/-- `VMClient.BatchedParseBlock`: fan a list of byte strings into one RPC; a
response list of a different length fails with
`errBatchedParseBlockWrongNumberOfBlocks` and no handles; otherwise fan the
response back out positionally. -/
def BatchedParseBlock (rpc : Except GoError (List BatchBlockResponse))
    (blksBytes : List ByteStr) : Option (List blockClient) × Option GoError :=
  match rpc with
  | Except.error e => (none, some e)
  | Except.ok resp =>
    if blksBytes.length ≠ resp.length then
      (none, some GoError.errBatchedParseBlockWrongNumberOfBlocks)
    else
      match batchedParseLoop (blksBytes.zip resp) with
      | Except.error e => (none, some e)
      | Except.ok blks => (some blks, none)

/-- Whether a batched response entry decodes without error (both identifiers
the right length, status valid, timestamp convertible). -/
def batchEntryDecodes (r : BatchBlockResponse) : Bool :=
  decide (r.id.length = idLen) && decide (r.parentId.length = idLen) &&
    decide (status_Valid r.status = none) && r.timestamp.valid

/-- The handle a decodable batched response entry produces from input bytes. -/
def batchEntryBlock (bytes : ByteStr) (r : BatchBlockResponse) : blockClient :=
  ⟨r.id, r.parentId, r.status, bytes, r.height, r.timestamp.seconds⟩

/-- Modelled from the spec: `wrappers.Errs.Add` keeps the first non-nil error
("aggregate and return first error encountered, continuing through the
rest"). -/
def errs_Add (acc e : Option GoError) : Option GoError :=
  match acc with
  | some a => some a
  | none => e

/-- The first non-nil error of a list of step outcomes. -/
def firstErr : List (Option GoError) → Option GoError
  | [] => none
  | e :: rest =>
    match e with
    | some a => some a
    | none => firstErr rest

/-- One teardown step of `VMClient.Shutdown`, as an element of its effect
trace. -/
inductive ShutdownStep where
  | pluginShutdownRPC
  | serverCloserStop
  | connClose (idx : Nat)
  | procKill
  | untrackProcess
  deriving DecidableEq, Repr

/-- The connection-closing loop of `Shutdown`: close every auxiliary client
connection in order, folding each outcome into the error aggregate, never
stopping early. -/
def closeConns (connCloseErrs : List (Option GoError)) (idx : Nat)
    (errs : Option GoError) : List ShutdownStep × Option GoError :=
  match connCloseErrs with
  | [] => ([], errs)
  | e :: rest =>
    let errs := errs_Add errs e
    let (steps, finalErrs) := closeConns rest (idx + 1) errs
    (ShutdownStep.connClose idx :: steps, finalErrs)

/-- `VMClient.Shutdown`: ask the plugin to stop (folding the RPC outcome into
the error aggregate), stop the locally-hosted RPC servers, close every
auxiliary client connection, kill the plugin process, untrack its PID; return
the effect trace and the aggregated (first) error. -/
def Shutdown (shutdownRPCErr : Option GoError)
    (connCloseErrs : List (Option GoError)) :
    List ShutdownStep × Option GoError :=
  let errs := errs_Add none shutdownRPCErr
  let (connSteps, errs) := closeConns connCloseErrs 0 errs
  (ShutdownStep.pluginShutdownRPC :: ShutdownStep.serverCloserStop :: connSteps
      ++ [ShutdownStep.procKill, ShutdownStep.untrackProcess],
    errs)

/-- One local side effect of `VMClient.Initialize`, as an element of its
effect trace. -/
inductive InitEffect where
  | registerServerMetrics
  | gathererRegisterNamed
  | gathererRegisterAdapter
  | dbServerStart (version : Nat)
  | proxyServersCreated
  | vmServerStart
  | remoteInitializeCall
  | registerMetricsGatherer
  deriving DecidableEq, Repr

/-- The response message of the remote `Initialize` RPC. -/
structure InitializeResponse where
  lastAcceptedId : ByteStr
  lastAcceptedParentId : ByteStr
  bytes : ByteStr
  height : Nat
  timestamp : WireTimestamp
  deriving DecidableEq, Repr

/-- The outcomes of every fallible collaborator `Initialize` touches, in
program order: the three metrics registrations, the per-database listener
creations (paired with each database's version), the vm-services listener,
the remote `Initialize` RPC, the metered-state construction, and the final
context metrics registration. -/
structure InitializeOracle where
  registerMetricsErr : Option GoError
  gathererNamedErr : Option GoError
  gathererAdapterErr : Option GoError
  dbs : List (Nat × Option GoError)
  vmListenerErr : Option GoError
  initResponse : Except GoError InitializeResponse
  meteredStateErr : Option GoError
  ctxMetricsRegisterErr : Option GoError
  deriving Repr

/-- The per-database server loop of `Initialize`: for each versioned database
create a listener (aborting on failure) and start serving it. -/
def startDBServers : List (Nat × Option GoError) → List InitEffect × Option GoError
  | [] => ([], none)
  | (ver, lErr) :: rest =>
    match lErr with
    | some e => ([], some e)
    | none =>
      let (effs, err) := startDBServers rest
      (InitEffect.dbServerStart ver :: effs, err)

/-- `VMClient.Initialize`: fails immediately with `errUnsupportedFXs` when the
feature-extension list is non-empty, before any side effect; otherwise
performs the bootstrap in program order — metrics registrations, one served
proxy per versioned database, the seven proxy services, the vm-services
server, the remote `Initialize` call, decoding the last-accepted block into an
Accepted-status handle, the metered-state construction, and the final metrics
registration — aborting at the first failure.  Returns the effect trace, the
last-accepted handle when reached, and the error outcome. -/
def Initialize (numFxs : Nat) (o : InitializeOracle) :
    List InitEffect × Option blockClient × Option GoError :=
  if numFxs ≠ 0 then ([], none, some GoError.errUnsupportedFXs)
  else
    let effs := [InitEffect.registerServerMetrics]
    match o.registerMetricsErr with
    | some e => (effs, none, some e)
    | none =>
      let effs := effs ++ [InitEffect.gathererRegisterNamed]
      match o.gathererNamedErr with
      | some e => (effs, none, some e)
      | none =>
        let effs := effs ++ [InitEffect.gathererRegisterAdapter]
        match o.gathererAdapterErr with
        | some e => (effs, none, some e)
        | none =>
          let (dbEffs, dbErr) := startDBServers o.dbs
          let effs := effs ++ dbEffs
          match dbErr with
          | some e => (effs, none, some e)
          | none =>
            let effs := effs ++ [InitEffect.proxyServersCreated]
            match o.vmListenerErr with
            | some e => (effs, none, some e)
            | none =>
              let effs := effs ++ [InitEffect.vmServerStart,
                InitEffect.remoteInitializeCall]
              match o.initResponse with
              | Except.error e => (effs, none, some e)
              | Except.ok resp =>
                let (id, idErr) := ids_ToID resp.lastAcceptedId
                match idErr with
                | some e => (effs, none, some e)
                | none =>
                  let (parentID, pErr) := ids_ToID resp.lastAcceptedParentId
                  match pErr with
                  | some e => (effs, none, some e)
                  | none =>
                    let (time, tErr) := grpcutils_TimestampAsTime resp.timestamp
                    match tErr with
                    | some e => (effs, none, some e)
                    | none =>
                      let blk : blockClient :=
                        ⟨id, parentID, choices_Accepted, resp.bytes,
                          resp.height, time⟩
                      match o.meteredStateErr with
                      | some e => (effs, none, some e)
                      | none =>
                        let effs := effs ++ [InitEffect.registerMetricsGatherer]
                        (effs, some blk, o.ctxMetricsRegisterErr)

/-- The response message of the `StateSyncEnabled` RPC. -/
structure StateSyncEnabledResponse where
  enabled : Bool
  err : Nat
  deriving DecidableEq, Repr

/-- `VMClient.StateSyncEnabled`: translate the embedded error code; when the
translation is the state-sync "not implemented" error, return `(false, none)`;
otherwise return the response's enabled flag together with the translation. -/
def StateSyncEnabled (rpc : Except GoError StateSyncEnabledResponse) :
    Bool × Option GoError :=
  match rpc with
  | Except.error e => (false, some e)
  | Except.ok resp =>
    let err := errCodeToError resp.err
    if err = some ErrStateSyncableVMNotImplemented then (false, none)
    else (resp.enabled, err)

/-- C1 (counterexample): the claim says a non-zero, non-not-implemented error
code yields result `(false, the typed error)`; but on a response with
`enabled = true` and the not-found code, `StateSyncEnabled` returns the
response's enabled flag `true`, not `false`. -/
theorem stateSyncEnabled_other_error_not_false :
    StateSyncEnabled (Except.ok ⟨true, errCodeNotFound⟩) ≠
      (false, errCodeToError errCodeNotFound) := by
  decide

/-- C1 (amended): for every `StateSyncEnabled` call whose RPC succeeds: the
not-implemented code yields `(false, no error)`; any other non-zero code
yields `(the response's enabled flag, the typed error for that code)`; code
zero yields `(the response's enabled flag, no error)`. -/
theorem stateSyncEnabled_spec (resp : StateSyncEnabledResponse) :
    StateSyncEnabled (Except.ok resp) =
      if resp.err = errCodeStateSyncableVMNotImplemented then (false, none)
      else (resp.enabled, errCodeToError resp.err) := by
  by_cases h : resp.err = errCodeStateSyncableVMNotImplemented
  · simp [StateSyncEnabled, h, errCodeToError, ErrStateSyncableVMNotImplemented,
      errCodeStateSyncableVMNotImplemented]
  · by_cases h0 : resp.err = 0
    · simp [StateSyncEnabled, h, h0, errCodeToError,
        errCodeStateSyncableVMNotImplemented]
    · simp [StateSyncEnabled, h, h0, errCodeToError,
        ErrStateSyncableVMNotImplemented]

/-- C7: for every `VerifyHeightIndex` call whose RPC succeeds, the result is
exactly the error-code translation of the response's embedded code (zero maps
to no error); the not-implemented code maps to the specific "not implemented"
error, which differs from success (`none`) and from the translation of every
other code, so callers can treat it as an optional-capability signal. -/
theorem verifyHeightIndex_spec :
    (∀ c, VerifyHeightIndex (Except.ok c) = errCodeToError c)
    ∧ VerifyHeightIndex (Except.ok errCodeHeightIndexedVMNotImplemented) =
        some ErrHeightIndexedVMNotImplemented
    ∧ some ErrHeightIndexedVMNotImplemented ≠ (none : Option GoError)
    ∧ (∀ c, c ≠ 0 → c ≠ errCodeHeightIndexedVMNotImplemented →
        VerifyHeightIndex (Except.ok c) ≠ some ErrHeightIndexedVMNotImplemented) := by
  refine ⟨fun c => rfl, by decide, by decide, fun c h0 hni => ?_⟩
  simpa [VerifyHeightIndex, errCodeToError, h0,
    ErrHeightIndexedVMNotImplemented] using hni

/-- C9: a `Verify` call on a block handle whose RPC succeeds overwrites only
the handle's timestamp (with the decoded response timestamp); the handle's
id, parent id, status, bytes and height are unchanged. -/
theorem blockVerify_frame (b : blockClient) (resp : BlockVerifyResponse) :
    ((b.Verify (Except.ok resp)).1).time =
        (grpcutils_TimestampAsTime resp.timestamp).1
    ∧ ((b.Verify (Except.ok resp)).1).id = b.id
    ∧ ((b.Verify (Except.ok resp)).1).parentID = b.parentID
    ∧ ((b.Verify (Except.ok resp)).1).status = b.status
    ∧ ((b.Verify (Except.ok resp)).1).bytes = b.bytes
    ∧ ((b.Verify (Except.ok resp)).1).height = b.height := by
  rcases h : grpcutils_TimestampAsTime resp.timestamp with ⟨t, terr⟩
  simp [blockClient.Verify, h]

/-- C8: for every `Initialize` call whose feature-extension list is non-empty,
initialization fails immediately with `errUnsupportedFXs`: the effect trace is
empty (no metrics registration, no database server started, no proxy service
created, no remote `Initialize` call) and no last-accepted handle exists. -/
theorem initialize_rejects_fxs (numFxs : Nat) (o : InitializeOracle)
    (h : numFxs ≠ 0) :
    Initialize numFxs o = ([], none, some GoError.errUnsupportedFXs) := by
  simp [Initialize, h]

/-- C8 witness: one feature extension with an otherwise benign oracle. -/
theorem initialize_rejects_fxs_witness :
    Initialize 1
        ⟨none, none, none, [], none, Except.error (GoError.transport 0),
          none, none⟩ =
      ([], none, some GoError.errUnsupportedFXs) :=
  initialize_rejects_fxs 1
    ⟨none, none, none, [], none, Except.error (GoError.transport 0),
      none, none⟩ (by decide)

/-- C10: for every `BuildBlock`, `ParseBlock` or `GetBlock` call whose
response's identifiers (and status, where checked) decode but whose timestamp
does not, the operation returns the constructed handle (with the zero
timestamp) *together with* the timestamp decoding error — never a missing
handle with the error. -/
theorem timestamp_failure_still_returns_handle (respB : BuildBlockResponse)
    (respP : ParseBlockResponse) (respG : GetBlockResponse)
    (input blkID : ByteStr) :
    (respB.id.length = idLen → respB.parentId.length = idLen →
      respB.timestamp.valid = false →
      buildBlock (Except.ok respB) =
        (some ⟨respB.id, respB.parentId, choices_Processing, respB.bytes,
          respB.height, 0⟩, some GoError.invalidTimestamp))
    ∧ (respP.id.length = idLen → respP.parentId.length = idLen →
      status_Valid respP.status = none → respP.timestamp.valid = false →
      parseBlock (Except.ok respP) input =
        (some ⟨respP.id, respP.parentId, respP.status, input, respP.height, 0⟩,
          some GoError.invalidTimestamp))
    ∧ (respG.err = 0 → respG.parentId.length = idLen →
      status_Valid respG.status = none → respG.timestamp.valid = false →
      getBlock (Except.ok respG) blkID =
        (some ⟨blkID, respG.parentId, respG.status, respG.bytes, respG.height,
          0⟩, some GoError.invalidTimestamp)) := by
  refine ⟨fun h1 h2 h3 => ?_, fun h1 h2 h3 h4 => ?_, fun h1 h2 h3 h4 => ?_⟩
  · simp [buildBlock, ids_ToID, h1, h2, grpcutils_TimestampAsTime, h3]
  · simp [parseBlock, ids_ToID, h1, h2, h3, grpcutils_TimestampAsTime, h4]
  · simp [getBlock, ids_ToID, h1, h2, h3, grpcutils_TimestampAsTime, h4]

/-- Every handle `getBlock` returns carries the *requested* identifier. -/
theorem getBlock_ok_id (resp : GetBlockResponse) (blkID : ByteStr)
    (b : blockClient) (e : Option GoError)
    (h : getBlock (Except.ok resp) blkID = (some b, e)) : b.id = blkID := by
  rcases hP : ids_ToID resp.parentId with ⟨parentID, pErr⟩
  rcases hT : grpcutils_TimestampAsTime resp.timestamp with ⟨time, tErr⟩
  by_cases h0 : resp.err = 0
  · cases pErr with
    | some e2 => simp [getBlock, h0, hP] at h
    | none =>
      cases hS : status_Valid resp.status with
      | some e2 => simp [getBlock, h0, hP, hS] at h
      | none =>
        simp [getBlock, h0, hP, hS, hT] at h
        rw [← h.1]
  · simp [getBlock, h0] at h

/-- C3: for every `GetBlock` or `GetBlockIDAtHeight` call whose RPC succeeds
but whose response carries a non-zero error code, the operation fails with the
typed error for that code and a zero-valued result (no handle for `GetBlock`,
the empty identifier for `GetBlockIDAtHeight`); every handle a successful
`GetBlock` constructs carries the *requested* identifier, not one re-decoded
from the response. -/
theorem getBlock_error_and_id_spec (respB : GetBlockResponse)
    (respH : GetBlockIDAtHeightResponse) (blkID : ByteStr) :
    (respB.err ≠ 0 →
      getBlock (Except.ok respB) blkID =
        (none, some (GoError.protoErr respB.err)))
    ∧ (respH.err ≠ 0 →
      GetBlockIDAtHeight (Except.ok respH) =
        (idEmpty, some (GoError.protoErr respH.err)))
    ∧ (∀ b e, getBlock (Except.ok respB) blkID = (some b, e) →
        b.ID = blkID) := by
  refine ⟨fun h => ?_, fun h => ?_, fun b e h => getBlock_ok_id respB blkID b e h⟩
  · simp [getBlock, h, errCodeToError]
  · simp [GetBlockIDAtHeight, h, errCodeToError]

/-- Every handle `parseBlock` returns carries the request bytes, and its
status passed the status-validity check. -/
theorem parseBlock_ok_facts (resp : ParseBlockResponse) (input : ByteStr)
    (b : blockClient) (e : Option GoError)
    (h : parseBlock (Except.ok resp) input = (some b, e)) :
    b.bytes = input ∧ status_Valid resp.status = none := by
  rcases hI : ids_ToID resp.id with ⟨id, idErr⟩
  rcases hP : ids_ToID resp.parentId with ⟨parentID, pErr⟩
  rcases hT : grpcutils_TimestampAsTime resp.timestamp with ⟨time, tErr⟩
  cases idErr with
  | some e2 => simp [parseBlock, hI] at h
  | none =>
    cases pErr with
    | some e2 => simp [parseBlock, hI, hP] at h
    | none =>
      cases hS : status_Valid resp.status with
      | some e2 => simp [parseBlock, hI, hP, hS] at h
      | none =>
        simp [parseBlock, hI, hP, hS, hT] at h
        exact ⟨by rw [← h.1], rfl⟩

/-- C4: the accessors of a handle constructed from a
(id, parentID, status, bytes, height, timestamp) tuple return exactly those
values (they are pure field reads, so side-effect-free and repeatable); and
every handle `parseBlock` returns carries the caller's input bytes
byte-for-byte, its status having passed the status-validity check. -/
theorem blockClient_accessor_spec (id parentID bytes input : ByteStr)
    (status height : Nat) (time : Int) (resp : ParseBlockResponse) :
    (blockClient.ID ⟨id, parentID, status, bytes, height, time⟩ = id
      ∧ blockClient.Parent ⟨id, parentID, status, bytes, height, time⟩ = parentID
      ∧ blockClient.Status ⟨id, parentID, status, bytes, height, time⟩ = status
      ∧ blockClient.Bytes ⟨id, parentID, status, bytes, height, time⟩ = bytes
      ∧ blockClient.Height ⟨id, parentID, status, bytes, height, time⟩ = height
      ∧ blockClient.Timestamp ⟨id, parentID, status, bytes, height, time⟩ = time)
    ∧ (∀ b e, parseBlock (Except.ok resp) input = (some b, e) →
        b.Bytes = input ∧ status_Valid resp.status = none) := by
  exact ⟨⟨rfl, rfl, rfl, rfl, rfl, rfl⟩,
    fun b e h => parseBlock_ok_facts resp input b e h⟩

/-- The connection-closing loop emits one `connClose` step per connection, in
order, regardless of which closes fail. -/
theorem closeConns_steps (l : List (Option GoError)) (k : Nat)
    (errs : Option GoError) :
    (closeConns l k errs).1 =
      (List.range l.length).map (fun i => ShutdownStep.connClose (k + i)) := by
  induction l generalizing k errs with
  | nil => simp [closeConns]
  | cons e rest ih =>
    simp only [closeConns, ih, List.length_cons, List.range_succ_eq_map,
      List.map_cons, List.map_map, Nat.add_zero]
    congr 1
    apply List.map_congr_left
    intro i _
    simp only [Function.comp_apply]
    congr 1
    omega

/-- The connection-closing loop aggregates the first non-nil error among the
running aggregate and the per-connection outcomes. -/
theorem closeConns_err (l : List (Option GoError)) (k : Nat)
    (errs : Option GoError) :
    (closeConns l k errs).2 = firstErr (errs :: l) := by
  induction l generalizing k errs with
  | nil => cases errs <;> simp [closeConns, firstErr]
  | cons e rest ih =>
    cases errs with
    | some a =>
      simp [closeConns, errs_Add, firstErr, ih]
    | none =>
      simp [closeConns, errs_Add, firstErr, ih]

/-- C6: every `Shutdown` call attempts all teardown steps regardless of
earlier failures — the plugin-stop RPC, stopping the locally-hosted RPC
servers, one close per auxiliary client connection, killing the plugin
process, untracking its PID — and returns the first non-nil error among the
plugin-stop outcome and the connection-close outcomes. -/
theorem shutdown_attempts_all_steps (shutdownRPCErr : Option GoError)
    (connCloseErrs : List (Option GoError)) :
    (Shutdown shutdownRPCErr connCloseErrs).1 =
      ShutdownStep.pluginShutdownRPC :: ShutdownStep.serverCloserStop ::
        ((List.range connCloseErrs.length).map ShutdownStep.connClose
          ++ [ShutdownStep.procKill, ShutdownStep.untrackProcess])
    ∧ (Shutdown shutdownRPCErr connCloseErrs).2 =
        firstErr (shutdownRPCErr :: connCloseErrs) := by
  constructor
  · rcases h : closeConns connCloseErrs 0 (errs_Add none shutdownRPCErr)
      with ⟨steps, errs⟩
    have hs := closeConns_steps connCloseErrs 0 (errs_Add none shutdownRPCErr)
    rw [h] at hs
    simp only [Prod.fst] at hs
    simp only [Shutdown, h]
    simp [hs]
  · rcases h : closeConns connCloseErrs 0 (errs_Add none shutdownRPCErr)
      with ⟨steps, errs⟩
    have he := closeConns_err connCloseErrs 0 (errs_Add none shutdownRPCErr)
    rw [h] at he
    simp only [Shutdown, h]
    simpa [errs_Add] using he

/-- When every response entry decodes, the batched-parse loop succeeds and
produces exactly the positional pairing of input bytes with decoded entries. -/
theorem batchedParseLoop_ok (l : List (ByteStr × BatchBlockResponse))
    (h : ∀ p ∈ l, batchEntryDecodes p.2 = true) :
    batchedParseLoop l =
      Except.ok (l.map fun p => batchEntryBlock p.1 p.2) := by
  induction l with
  | nil => simp [batchedParseLoop]
  | cons p rest ih =>
    obtain ⟨bytes, r⟩ := p
    have hr := h _ (List.mem_cons_self _ _)
    have hrest := fun q hq => h q (List.mem_cons_of_mem _ hq)
    simp only [batchEntryDecodes, Bool.and_eq_true, decide_eq_true_eq] at hr
    obtain ⟨⟨⟨h1, h2⟩, h3⟩, h4⟩ := hr
    simp [batchedParseLoop, ids_ToID, h1, h2, h3, grpcutils_TimestampAsTime,
      h4, ih hrest, batchEntryBlock]

/-- C2: for every input list of byte strings, `BatchedParseBlock` fails with
the batch-count-mismatch error (and no handles) when the response list's
length differs from the input's; when the lengths agree and every entry
decodes, it returns exactly one handle per input, in input order, the handle
at position `i` carrying the input bytes at position `i` together with the
decoded id, parent, status, height and timestamp of response entry `i`. -/
theorem batchedParseBlock_spec (blksBytes : List ByteStr)
    (resp : List BatchBlockResponse) :
    (resp.length ≠ blksBytes.length →
      BatchedParseBlock (Except.ok resp) blksBytes =
        (none, some GoError.errBatchedParseBlockWrongNumberOfBlocks))
    ∧ (resp.length = blksBytes.length →
      (∀ r ∈ resp, batchEntryDecodes r = true) →
      ∃ blks, BatchedParseBlock (Except.ok resp) blksBytes = (some blks, none)
        ∧ blks.length = blksBytes.length
        ∧ ∀ i (h1 : i < blks.length) (h2 : i < blksBytes.length)
            (h3 : i < resp.length),
            blks.get ⟨i, h1⟩ =
              batchEntryBlock (blksBytes.get ⟨i, h2⟩) (resp.get ⟨i, h3⟩)) := by
  constructor
  · intro h
    have hne : blksBytes.length ≠ resp.length := fun hh => h hh.symm
    simp [BatchedParseBlock, hne]
  · intro hlen hdec
    have hzip : ∀ p ∈ blksBytes.zip resp, batchEntryDecodes p.2 = true := by
      intro p hp
      obtain ⟨b2, r2⟩ := p
      exact hdec r2 (List.of_mem_zip hp).2
    refine ⟨(blksBytes.zip resp).map fun p => batchEntryBlock p.1 p.2, ?_, ?_, ?_⟩
    · simp [BatchedParseBlock, hlen, batchedParseLoop_ok _ hzip]
    · simp [List.length_zip, hlen]
    · intro i h1 h2 h3
      simp [List.get_eq_getElem, List.getElem_map, List.getElem_zip]

/-- A single non-decision operation (a `Verify`) never changes the status. -/
theorem applyBlockOp_nondecision_status (b : blockClient) (op : BlockOp)
    (h : op.isDecision = false) : (applyBlockOp b op).status = b.status := by
  cases op with
  | accept e => simp [BlockOp.isDecision] at h
  | reject e => simp [BlockOp.isDecision] at h
  | verify r =>
    cases r with
    | error e => rfl
    | ok resp =>
      rcases ht : grpcutils_TimestampAsTime resp.timestamp with ⟨t, terr⟩
      simp [applyBlockOp, blockClient.Verify, ht]

/-- A sequence of non-decision operations never changes the status. -/
theorem foldl_nondecision_status (ops : List BlockOp) (b : blockClient)
    (h : ∀ op ∈ ops, op.isDecision = false) :
    (ops.foldl applyBlockOp b).status = b.status := by
  induction ops generalizing b with
  | nil => rfl
  | cons op rest ih =>
    have hop := h op (List.mem_cons_self _ _)
    have hrest := fun q hq => h q (List.mem_cons_of_mem _ hq)
    rw [List.foldl_cons, ih _ hrest, applyBlockOp_nondecision_status b op hop]

/-- C5: starting from a Processing handle, the status stays Processing across
any sequence of `Verify` calls (status never moves through `Verify`);
`Accept` moves it to Accepted and `Reject` to Rejected — the local status is
set even when the RPC outcome is a failure, since it is written before the
remote call returns; and after the one decision, further `Verify` calls
leave the decided status in place, so the transition happens exactly once. -/
theorem block_status_transitions (b : blockClient)
    (h : b.Status = choices_Processing) :
    (∀ ops : List BlockOp, (∀ op ∈ ops, op.isDecision = false) →
      ((ops.foldl applyBlockOp b).Status = choices_Processing))
    ∧ (∀ e, ((b.Accept e).1).Status = choices_Accepted)
    ∧ (∀ e, ((b.Reject e).1).Status = choices_Rejected)
    ∧ (∀ e (ops : List BlockOp), (∀ op ∈ ops, op.isDecision = false) →
      ((ops.foldl applyBlockOp (b.Accept e).1).Status = choices_Accepted))
    ∧ (∀ e (ops : List BlockOp), (∀ op ∈ ops, op.isDecision = false) →
      ((ops.foldl applyBlockOp (b.Reject e).1).Status = choices_Rejected)) := by
  refine ⟨fun ops hops => ?_, fun e => rfl, fun e => rfl,
    fun e ops hops => ?_, fun e ops hops => ?_⟩
  · rw [blockClient.Status, foldl_nondecision_status ops b hops]
    exact h
  · rw [blockClient.Status, foldl_nondecision_status ops _ hops]
    rfl
  · rw [blockClient.Status, foldl_nondecision_status ops _ hops]
    rfl

/-- C5 witness: a concrete Processing handle, one failing `Verify` (status
still Processing), an `Accept` whose RPC fails (status already Accepted), and
a `Verify` after the decision (status still Accepted). -/
theorem block_status_transitions_witness :
    (([BlockOp.verify (Except.error (GoError.transport 0))].foldl applyBlockOp
        ⟨idEmpty, idEmpty, choices_Processing, [], 0, 0⟩).Status =
      choices_Processing)
    ∧ ((blockClient.Accept ⟨idEmpty, idEmpty, choices_Processing, [], 0, 0⟩
        (some (GoError.transport 1))).1.Status = choices_Accepted)
    ∧ (([BlockOp.verify (Except.ok ⟨⟨true, 5⟩⟩)].foldl applyBlockOp
        (blockClient.Accept ⟨idEmpty, idEmpty, choices_Processing, [], 0, 0⟩
          none).1).Status = choices_Accepted) := by
  have h := block_status_transitions
    ⟨idEmpty, idEmpty, choices_Processing, [], 0, 0⟩ rfl
  refine ⟨h.1 _ ?_, h.2.1 (some (GoError.transport 1)), h.2.2.2.1 none _ ?_⟩
  · intro op hop
    rw [List.mem_singleton.mp hop]
    rfl
  · intro op hop
    rw [List.mem_singleton.mp hop]
    rfl
